import Mathlib

/-!
Shallow embedding of the `time_utils` package (file `time_utils/__init__.py`)
and proofs about its specification claims.

Strings are modelled as `List Char`; Python's `int(...)` on slices is
modelled by `pyInt`; Python `datetime.datetime` values are modelled by
`PyDatetime` (constructor validation included).  Fallible Python code
(exceptions) is modelled with `Option`/`Except`.  The external fallback
parser (`dateutil.parser.parse`) is an explicit function parameter.
-/

namespace TimeUtils

/-- Value of a base-10 numeral given most-significant digit first. -/
def digitsToNat (ds : List Char) : ℕ :=
  ds.foldl (fun a c => 10 * a + (c.toNat - 48)) 0

/-- Helper for `pyInt`: a non-empty all-digit numeral. -/
def natDigits? (ds : List Char) : Option ℤ :=
  if ds ≠ [] ∧ ds.all Char.isDigit then some (digitsToNat ds : ℤ) else none

/-- Python `int(s)`: an optional sign followed by at least one decimal digit.
(Surrounding whitespace and underscore digit separators, which CPython also
accepts, never occur in the slices this development feeds to `pyInt` and are
not modelled; nor are non-ASCII digits.) -/
def pyInt (cs : List Char) : Option ℤ :=
  match cs with
  | [] => none
  | c :: ds =>
    if c = '+' then natDigits? ds
    else if c = '-' then (natDigits? ds).map (fun n => -n)
    else natDigits? (c :: ds)

/-- Python slice `s[a:b]` for nonnegative bounds. -/
def pySlice (s : List Char) (a b : ℕ) : List Char := (s.drop a).take (b - a)

/-- Python element access `s[-k]` for a negative index (`none` models the
`IndexError` raised when the string is shorter than `k`). -/
def pyGetNeg (s : List Char) (k : ℕ) : Option Char :=
  if s.length < k then none else s.get? (s.length - k)

/-- Python slice `s[-a:-b]` with negative indices (`b = 0` meaning `s[-a:]`),
as used by the code only on strings of length at least `a`. -/
def pySliceNeg (s : List Char) (a b : ℕ) : List Char :=
  (s.drop (s.length - a)).take (a - b)

/-- A `tzinfo` value attached to a parsed datetime: either `pytz.utc` or a
`dateutil.tz.tzoffset(None, seconds)` fixed offset. -/
inductive Tz where
  | utc : Tz
  | offset (seconds : ℤ) : Tz
deriving DecidableEq, Repr

/-- Python `datetime.datetime`: field view, with an optional `tzinfo`. -/
structure PyDatetime where
  year : ℤ
  month : ℤ
  day : ℤ
  hour : ℤ
  minute : ℤ
  second : ℤ
  microsecond : ℤ
  tzinfo : Option Tz
deriving DecidableEq, Repr

/-- Proleptic Gregorian leap-year rule (as `calendar.isleap`). -/
def isLeapYear (y : ℤ) : Bool := y % 4 == 0 && (y % 100 != 0 || y % 400 == 0)

/-- Length of a month in the proleptic Gregorian calendar. -/
def daysInMonth (y m : ℤ) : ℤ :=
  if m = 2 then (if isLeapYear y then 29 else 28)
  else if m = 4 ∨ m = 6 ∨ m = 9 ∨ m = 11 then 30 else 31

/-- The `datetime.datetime(...)` constructor with its range validation
(`none` models the `ValueError` raised on an out-of-range field). -/
def mkDatetime (y mo d h mi s us : ℤ) (tz : Option Tz) : Option PyDatetime :=
  if 1 ≤ y ∧ y ≤ 9999 ∧ 1 ≤ mo ∧ mo ≤ 12 ∧ 1 ≤ d ∧ d ≤ daysInMonth y mo
     ∧ 0 ≤ h ∧ h ≤ 23 ∧ 0 ≤ mi ∧ mi ≤ 59 ∧ 0 ≤ s ∧ s ≤ 59
     ∧ 0 ≤ us ∧ us ≤ 999999
  then some ⟨y, mo, d, h, mi, s, us, tz⟩ else none

/-- The fixed-position structural check of `_fromisoformat`:
`datetime_str[4] == datetime_str[7] == '-' and datetime_str[10] == 'T' and
datetime_str[13] == ':'` (an out-of-range index, Python `IndexError`, fails
the check just as a mismatch does — both abandon the fast path). -/
def structuralOk (s : List Char) : Bool :=
  s.get? 4 == some '-' && s.get? 7 == some '-' && s.get? 10 == some 'T'
    && s.get? 13 == some ':'

/-- Seconds field of `_fromisoformat`: `datetime_str[17:19]` when position 16
holds `':'`; an `IndexError` at position 16 is caught and seconds default
to 0; a failing `int(...)` (`none`) aborts the fast path. -/
def parseSecondsField (s : List Char) : Option ℤ :=
  match s.get? 16 with
  | none => some 0
  | some c => if c = ':' then pyInt (pySlice s 17 19) else some 0

/-- Fractional-second field of `_fromisoformat`: when position 19 holds `'.'`,
collect the following run of digits; exactly 3 digits are milliseconds
(scaled by 1000 to microseconds), exactly 6 digits are microseconds, any
other run length raises `ValueError` (`none`).  An `IndexError` at position
19 is caught and the microseconds default to 0. -/
def parseFragment (s : List Char) : Option ℤ :=
  match s.get? 19 with
  | none => some 0
  | some c =>
    if c = '.' then
      let fff := (s.drop 20).takeWhile Char.isDigit
      if fff.length = 3 then (pyInt fff).map (fun n => n * 1000)
      else if fff.length = 6 then pyInt fff
      else none
    else some 0

/-- The `±hhmm` (5-character) zone-suffix branch of `_fromisoformat`. -/
def tzShort (s : List Char) : Option (Option Tz) :=
  match pyGetNeg s 5 with
  | none => none
  | some c5 =>
    if c5 = '+' ∨ c5 = '-' then
      match pyInt (pySliceNeg s 4 2), pyInt (pySliceNeg s 2 0) with
      | some hh, some mm =>
        some (some (Tz.offset ((if c5 = '+' then 1 else -1) * (hh * 3600 + mm * 60))))
      | _, _ => none
    else some none

/-- Zone suffix resolution of `_fromisoformat`: trailing `'Z'` gives UTC, a
sign at `s[-6]` gives a `±hh:mm` fixed offset, a sign at `s[-5]` gives a
`±hhmm` fixed offset, otherwise the result is naive (`some none`). -/
def parseTzSuffix (s : List Char) : Option (Option Tz) :=
  match s.getLast? with
  | none => none
  | some c =>
    if c = 'Z' then some (some Tz.utc)
    else
      match pyGetNeg s 6 with
      | none => none
      | some c6 =>
        if c6 = '+' ∨ c6 = '-' then
          match pyInt (pySliceNeg s 5 3), pyInt (pySliceNeg s 2 0) with
          | some hh, some mm =>
            some (some (Tz.offset ((if c6 = '+' then 1 else -1) * (hh * 3600 + mm * 60))))
          | _, _ => none
        else tzShort s

/-- The fast-path positional ISO-8601 parser `_fromisoformat`.  Mirrors the
source: structural check, optional seconds, optional fraction, zone suffix,
then `datetime.datetime(max(1, int(s[:4])), max(1, int(s[5:7])),
max(1, int(s[8:10])), int(s[11:13]), int(s[14:16]), seconds, ms, tzinfo)`.
`none` models any exception escaping `_fromisoformat`. -/
def _fromisoformat (s : List Char) : Option PyDatetime :=
  if structuralOk s then
    match parseSecondsField s with
    | none => none
    | some sec =>
      match parseFragment s with
      | none => none
      | some us =>
        match parseTzSuffix s with
        | none => none
        | some tz =>
          match pyInt (pySlice s 0 4), pyInt (pySlice s 5 7), pyInt (pySlice s 8 10),
                pyInt (pySlice s 11 13), pyInt (pySlice s 14 16) with
          | some y, some mo, some d, some h, some mi =>
            mkDatetime (max 1 y) (max 1 mo) (max 1 d) h mi sec us tz
          | _, _, _, _, _ => none
  else none

/-- The parser `datetime_parse` without a default zone: try the fast path,
then fall back to the external generic parser (`dateutil`), which is passed
in as the function `fallback`.  (The source also makes a
`datetime.datetime.fromisoformat` attempt first, but its result is
unconditionally overwritten by `_fromisoformat`, so it does not affect the
returned value.) -/
def datetime_parse (fallback : List Char → Option PyDatetime) (s : List Char) :
    Option PyDatetime :=
  match _fromisoformat s with
  | some dt => some dt
  | none => fallback s

/-- Word character for the regex word-boundary rule, ASCII fragment of
`\w` (all inputs of interest are ASCII). -/
def isWordChar (c : Char) : Bool := c.isAlphanum || c = '_'

/-- Greedy match of `[0-9]+([,.][0-9]+)?` at the front of the input:
returns the matched characters and the rest.  Greedy matching is exact
here because in the duration pattern a numeric token is always followed by
a unit letter, never by a digit, `.` or `,`. -/
def matchNumber (s : List Char) : Option (List Char × List Char) :=
  let d1 := s.takeWhile Char.isDigit
  let r1 := s.dropWhile Char.isDigit
  if d1 = [] then none
  else
    match r1 with
    | c :: r2 =>
      if c = ',' ∨ c = '.' then
        let d2 := r2.takeWhile Char.isDigit
        if d2 = [] then some (d1, r1)
        else some (d1 ++ c :: d2, r2.dropWhile Char.isDigit)
      else some (d1, r1)
    | [] => some (d1, [])

/-- One optional suffixed field `([0-9]+([,.][0-9]+)?<unit>)?` of the
duration pattern: on success, the captured group text (number plus the
trailing unit letter, exactly what the named group captures) and the rest;
otherwise the group is `None` and nothing is consumed. -/
def matchField (unit : Char) (s : List Char) : Option (List Char) × List Char :=
  match matchNumber s with
  | none => (none, s)
  | some (num, rest) =>
    match rest with
    | c :: r2 => if c = unit then (some (num ++ [unit]), r2) else (none, s)
    | [] => (none, s)

/-- The named groups of a successful `ISO8601_DURATION.match`, as in the
source's `match.groupdict()` (`none` = group did not participate). -/
structure DurationMatch where
  sign : Option Char
  years : Option (List Char)
  months : Option (List Char)
  weeks : Option (List Char)
  days : Option (List Char)
  hours : Option (List Char)
  minutes : Option (List Char)
  seconds : Option (List Char)
deriving DecidableEq, Repr

/-- The optional leading `[+-]` of the duration pattern. -/
def parseSign (s : List Char) : Option Char × List Char :=
  match s with
  | c :: rest => if c = '+' ∨ c = '-' then (some c, rest) else (none, s)
  | [] => (none, s)

/-- Body of `ISO8601_DURATION` after the optional sign: the mandatory `P`,
the negative lookahead `(?!\b)` (after the word character `P`, a word
boundary is exactly end-of-input or a non-word character, so the lookahead
demands that a word character follow), the four date fields, the optional
`T` time section, and the `$` anchor.  The pattern is deterministic — an
optional field participates exactly when its digits-plus-unit shape is
present — so this function computes the same result as the backtracking
regex engine. -/
def matchDurationBody (s : List Char) : Option DurationMatch :=
  match s with
  | [] => none
  | c :: s2 =>
    if c = 'P' then
      match s2.head? with
      | none => none
      | some c2 =>
        if isWordChar c2 then
          let f1 := matchField 'Y' s2
          let f2 := matchField 'M' f1.2
          let f3 := matchField 'W' f2.2
          let f4 := matchField 'D' f3.2
          match f4.2 with
          | [] => some ⟨none, f1.1, f2.1, f3.1, f4.1, none, none, none⟩
          | c6 :: s7 =>
            if c6 = 'T' then
              let f5 := matchField 'H' s7
              let f6 := matchField 'M' f5.2
              let f7 := matchField 'S' f6.2
              if f7.2 = [] then some ⟨none, f1.1, f2.1, f3.1, f4.1, f5.1, f6.1, f7.1⟩
              else none
            else none
        else none
    else none

/-- `ISO8601_DURATION.match`: optional sign, then the body. -/
def iso8601DurationMatch (s : List Char) : Option DurationMatch :=
  let sr := parseSign s
  (matchDurationBody sr.2).map (fun m => { m with sign := sr.1 })

/-- Value of a captured decimal numeral (digits with an optional `.` or `,`
fraction) as an exact rational.  This models Python's
`float(val.replace(',', '.'))` on the captured text; IEEE-754 rounding of
`float` is not modelled — it is exact on all inputs of realistic precision
and no claim of this development depends on it. -/
def parseDecimal (cs : List Char) : ℚ :=
  let ip := cs.takeWhile Char.isDigit
  match cs.dropWhile Char.isDigit with
  | c :: frac =>
    if c = '.' ∨ c = ',' then
      (digitsToNat ip : ℚ) + (digitsToNat frac : ℚ) / 10 ^ frac.length
    else (digitsToNat ip : ℚ)
  | [] => (digitsToNat ip : ℚ)

/-- `_parse_single_duration_value`: a missing group resolves to 0; otherwise
drop the trailing unit letter (`val[:-1]`) and read the decimal. -/
def _parse_single_duration_value (g : Option (List Char)) : ℚ :=
  match g with
  | none => 0
  | some cs => parseDecimal cs.dropLast

/-- Python `int(x)` on an exact rational: truncation toward zero. -/
def pyTrunc (q : ℚ) : ℤ := Int.tdiv q.num q.den

/-- Failure modes of duration parsing: the two `AmbiguousDurationError`
raises of the source, the `relativedelta` constructor's own rejection of
non-integral years/months (never reachable from `parse_iso_duration`), and
the final `DurationFormatError` (`Could not parse ...`). -/
inductive DurationError where
  | ambiguousYears
  | ambiguousMonths
  | nonIntegerYearsMonths
  | couldNotParse
deriving DecidableEq, Repr

/-- `_parse_duration_years`: an integral years value passes through with no
extra months; a fractional one must give an exact integer month count
(`fracs * 12`), else the ambiguity error is raised. -/
def _parse_duration_years (g : Option (List Char)) : Except DurationError (ℤ × ℚ) :=
  match g with
  | none => Except.ok (0, 0)
  | some cs =>
    let val := _parse_single_duration_value (some cs)
    let years := pyTrunc val
    if (years : ℚ) = val then Except.ok (years, 0)
    else
      let fracs := val - (years : ℚ)
      let months := fracs * 12
      if (pyTrunc months : ℚ) = months then Except.ok (years, months)
      else Except.error DurationError.ambiguousYears

/-- `_parse_duration_months`: the months group must be integral. -/
def _parse_duration_months (g : Option (List Char)) : Except DurationError ℤ :=
  match g with
  | none => Except.ok 0
  | some cs =>
    let val := _parse_single_duration_value (some cs)
    if (pyTrunc val : ℚ) = val then Except.ok (pyTrunc val)
    else Except.error DurationError.ambiguousMonths

/-- The `dateutil.relativedelta` value as constructed by this repository:
the component arguments of the constructor call (the specification's
CalendarDelta).  The library's internal normalisations (folding `weeks`
into `days`, carrying overflowing components between units) are not
modelled: every claim here treats the components independently and none
distinguishes the normalised form. -/
structure RelativeDelta where
  years : ℤ
  months : ℤ
  days : ℚ
  weeks : ℚ
  hours : ℚ
  minutes : ℚ
  seconds : ℚ
deriving DecidableEq, Repr

/-- The `relativedelta(...)` constructor check: `years` and `months` must
equal their own `int(...)` truncation (else `ValueError`). -/
def mkRelativedelta (years months days weeks hours minutes seconds : ℚ) :
    Except DurationError RelativeDelta :=
  if (pyTrunc years : ℚ) = years ∧ (pyTrunc months : ℚ) = months then
    Except.ok ⟨pyTrunc years, pyTrunc months, days, weeks, hours, minutes, seconds⟩
  else Except.error DurationError.nonIntegerYearsMonths

/-- Componentwise negation of a delta. -/
def negDelta (d : RelativeDelta) : RelativeDelta :=
  ⟨-d.years, -d.months, -d.days, -d.weeks, -d.hours, -d.minutes, -d.seconds⟩

/-- `parse_iso_duration`: match the grammar; on failure, strip a leading
`P` and reinterpret the rest as a date-time literal via `datetime_parse`
(any exception there, or from that branch's `relativedelta` call, falls
through to the final `Could not parse` error); on success, resolve the
fields, with a leading `-` multiplying every resolved component. -/
def parse_iso_duration (fallback : List Char → Option PyDatetime) (s : List Char) :
    Except DurationError RelativeDelta :=
  match iso8601DurationMatch s with
  | none =>
    if s.head? = some 'P' then
      match datetime_parse fallback (s.drop 1) with
      | some dt =>
        match mkRelativedelta dt.year dt.month dt.day 0 dt.hour dt.minute dt.second with
        | Except.ok d => Except.ok d
        | Except.error _ => Except.error DurationError.couldNotParse
      | none => Except.error DurationError.couldNotParse
    else Except.error DurationError.couldNotParse
  | some m =>
    let sign : ℤ := if m.sign = some '-' then -1 else 1
    match _parse_duration_years m.years with
    | Except.error e => Except.error e
    | Except.ok ye =>
      match _parse_duration_months m.months with
      | Except.error e => Except.error e
      | Except.ok months =>
        mkRelativedelta ((sign : ℚ) * (ye.1 : ℚ)) ((sign : ℚ) * ((months : ℚ) + ye.2))
          ((sign : ℚ) * _parse_single_duration_value m.days)
          ((sign : ℚ) * _parse_single_duration_value m.weeks)
          ((sign : ℚ) * _parse_single_duration_value m.hours)
          ((sign : ℚ) * _parse_single_duration_value m.minutes)
          ((sign : ℚ) * _parse_single_duration_value m.seconds)

/-- Arithmetic view of a `datetime` for the grid-rounding claims:
wall-clock microseconds since `datetime.min` (0001-01-01T00:00:00)
together with an optional fixed UTC offset in seconds (a `pytz`-style
`tzinfo` instance carries a fixed offset). -/
structure DtMicros where
  wall : ℤ
  tz : Option ℤ
deriving DecidableEq, Repr

/-- Python datetime subtraction, as a `timedelta` in microseconds: naive
pairs subtract by wall clock, aware pairs via their UTC instants; mixing
naive and aware raises `TypeError` (`none`). -/
def datetimeSub (a b : DtMicros) : Option ℤ :=
  match a.tz, b.tz with
  | none, none => some (a.wall - b.wall)
  | some oa, some ob => some ((a.wall - oa * 1000000) - (b.wall - ob * 1000000))
  | _, _ => none

/-- `datetime + timedelta`: wall-clock addition, keeping the `tzinfo`. -/
def addTimedelta (a : DtMicros) (d : ℤ) : DtMicros := ⟨a.wall + d, a.tz⟩

/-- `timedelta % timedelta` in microseconds: Python `%` takes the sign of
the divisor (floor modulo); a zero grid raises `ZeroDivisionError`. -/
def timedeltaMod (a d : ℤ) : Option ℤ :=
  if d = 0 then none else some (Int.fmod a d)

/-- The epoch used by `ceil_datetime`/`floor_datetime`: `datetime.min`,
re-tagged with the input's own `tzinfo` when the input is aware. -/
def minDatetimeFor (a : DtMicros) : DtMicros := ⟨0, a.tz⟩

/-- `ceil_datetime`: `datetime_obj + (min_datetime - datetime_obj) % delta`. -/
def ceil_datetime (a : DtMicros) (delta : ℤ) : Option DtMicros :=
  match datetimeSub (minDatetimeFor a) a with
  | none => none
  | some diff =>
    match timedeltaMod diff delta with
    | none => none
    | some r => some (addTimedelta a r)

/-- `floor_datetime`: `datetime_obj - (datetime_obj - min_datetime) % delta`. -/
def floor_datetime (a : DtMicros) (delta : ℤ) : Option DtMicros :=
  match datetimeSub a (minDatetimeFor a) with
  | none => none
  | some diff =>
    match timedeltaMod diff delta with
    | none => none
    | some r => some (addTimedelta a (-r))

/-- `date.isoweekday()` on a proleptic-Gregorian ordinal (`date.toordinal`):
ordinal 1 is 0001-01-01, a Monday (= 1); Sunday = 7. -/
def isoweekday (n : ℤ) : ℤ := (n - 1) % 7 + 1

/-- The Monday-to-Friday list of `is_business_day`. -/
def iso_business_days : List ℤ := [1, 2, 3, 4, 5]

/-- `is_business_day`: the ISO weekday is in the Monday–Friday list
(Python `in`). -/
def is_business_day (n : ℤ) : Bool := decide (isoweekday n ∈ iso_business_days)

/-- The stepping loop `_get_next_timedelta`: take one step, then keep
stepping until the predicate holds.  Explicit fuel stands in for the
unbounded `while`; the business-day instances always succeed within three
steps (see the claim theorems), so any fuel of at least 3 computes the
loop's value. -/
def _get_next_timedelta (fuel : ℕ) (start : ℤ) (increment : ℤ → ℤ)
    (predicate : ℤ → Bool) : Option ℤ :=
  match fuel with
  | 0 => none
  | f + 1 =>
    let nxt := increment start
    if predicate nxt then some nxt else _get_next_timedelta f nxt increment predicate

/-- `get_next_business_day`: step forward one day at a time (dates as
`toordinal` ordinals) until a business day is reached. -/
def get_next_business_day (n : ℤ) : Option ℤ :=
  _get_next_timedelta 7 n (fun d => d + 1) is_business_day

/-- `get_previous_business_day`: step backward one day at a time. -/
def get_previous_business_day (n : ℤ) : Option ℤ :=
  _get_next_timedelta 7 n (fun d => d - 1) is_business_day

/-- `ensure_tz_object` on a string identifier.  `catalog` is the primary
IANA catalog (`pytz.timezone`), `winTz` the platform-native-name table
(`tzlocal.windows_tz.win_tz`).  The error value carries the identifier the
failing `pytz.timezone` call was given: the original identifier when the
table also misses (the original `UnknownTimeZoneError` is re-raised), the
translated name if the retry itself misses.  The branch returning an input
that is already a `tzinfo` object unchanged is not modelled here, as the
claim quantifies over string identifiers only. -/
def ensure_tz_object {Zone : Type} (catalog : String → Option Zone)
    (winTz : String → Option String) (ident : String) : Except String Zone :=
  match catalog ident with
  | some z => Except.ok z
  | none =>
    match winTz ident with
    | none => Except.error ident
    | some t =>
      match catalog t with
      | some z => Except.ok z
      | none => Except.error t

/-- `get_current_utc_offset`, abstracted over the zone's current UTC offset
in whole seconds (`utcoffset(utcnow()).total_seconds()`):
`int(total_seconds / 3600)`, Python `int()` truncating the exact quotient
toward zero. -/
def get_current_utc_offset (offsetSeconds : ℤ) : ℤ :=
  pyTrunc ((offsetSeconds : ℚ) / 3600)

/-! ## Helper lemmas -/

theorem char_isDigit_toNat {c : Char} (h : c.isDigit = true) :
    48 ≤ c.toNat ∧ c.toNat ≤ 57 := by
  simp only [Char.isDigit, Bool.and_eq_true, decide_eq_true_eq] at h
  exact h

theorem isDigit_ne {c x : Char} (h : c.isDigit = true) (hx : x.isDigit = false) :
    c ≠ x := by
  rintro rfl
  rw [h] at hx
  exact Bool.noConfusion hx

theorem digitsToNat_foldl (ds : List Char) (a : ℕ) :
    List.foldl (fun a c => 10 * a + (c.toNat - 48)) a ds
      = a * 10 ^ ds.length + digitsToNat ds := by
  induction ds generalizing a with
  | nil => simp [digitsToNat]
  | cons c t ih =>
    simp only [List.foldl_cons, List.length_cons, digitsToNat]
    rw [ih (10 * a + (c.toNat - 48)), ih (10 * 0 + (c.toNat - 48))]
    ring

theorem digitsToNat_cons (c : Char) (t : List Char) :
    digitsToNat (c :: t) = (c.toNat - 48) * 10 ^ t.length + digitsToNat t := by
  simp only [digitsToNat, List.foldl_cons]
  rw [digitsToNat_foldl]
  ring_nf
  rfl

theorem digitsToNat_lt (ds : List Char) (h : ∀ c ∈ ds, c.isDigit = true) :
    digitsToNat ds < 10 ^ ds.length := by
  induction ds with
  | nil => simp [digitsToNat]
  | cons c t ih =>
    have hc := char_isDigit_toNat (h c (by simp))
    have ht := ih (fun x hx => h x (by simp [hx]))
    rw [digitsToNat_cons, List.length_cons]
    have hv : c.toNat - 48 ≤ 9 := by omega
    calc (c.toNat - 48) * 10 ^ t.length + digitsToNat t
        < (c.toNat - 48) * 10 ^ t.length + 10 ^ t.length := by omega
      _ = (c.toNat - 48 + 1) * 10 ^ t.length := by ring
      _ ≤ 10 * 10 ^ t.length := Nat.mul_le_mul_right _ (by omega)
      _ = 10 ^ (t.length + 1) := by ring

theorem pyInt_digits (ds : List Char) (hne : ds ≠ [])
    (h : ∀ c ∈ ds, c.isDigit = true) :
    pyInt ds = some (digitsToNat ds : ℤ) := by
  match ds with
  | c :: t =>
    have hc : c.isDigit = true := h c (by simp)
    have h1 : c ≠ '+' := isDigit_ne hc (by decide)
    have h2 : c ≠ '-' := isDigit_ne hc (by decide)
    simp only [pyInt, if_neg h1, if_neg h2, natDigits?]
    rw [if_pos ⟨by simp, List.all_eq_true.mpr (fun x hx => h x hx)⟩]

theorem pyInt_two_digits {a b : Char} (ha : a.isDigit = true) (hb : b.isDigit = true) :
    pyInt [a, b] = some ((10 * (a.toNat - 48) + (b.toNat - 48) : ℕ) : ℤ) := by
  rw [pyInt_digits [a, b] (by simp)
    (by intro c hc; simp at hc; rcases hc with rfl | rfl <;> assumption)]
  congr 2
  simp [digitsToNat]

theorem takeWhile_digits {ds : List Char} (h : ∀ c ∈ ds, c.isDigit = true) :
    ds.takeWhile Char.isDigit = ds :=
  List.takeWhile_eq_self_iff.mpr h

theorem length_eq_six {α : Type} {l : List α} (h : l.length = 6) :
    ∃ a b c d e f, l = [a, b, c, d, e, f] := by
  rcases l with _ | ⟨a, _ | ⟨b, _ | ⟨c, _ | ⟨d, _ | ⟨e, _ | ⟨f, _ | ⟨g, t⟩⟩⟩⟩⟩⟩⟩ <;>
    simp_all

theorem mkDatetime_some {y mo d h mi s us : ℤ} {tz : Option Tz} {dt : PyDatetime}
    (hm : mkDatetime y mo d h mi s us tz = some dt) :
    dt = ⟨y, mo, d, h, mi, s, us, tz⟩ := by
  unfold mkDatetime at hm
  split at hm
  · exact (Option.some.inj hm).symm
  · exact absurd hm (by simp)

theorem _fromisoformat_inv {s : List Char} {dt : PyDatetime}
    (h : _fromisoformat s = some dt) :
    ∃ y mo d hh mi sec us tz,
      pyInt (pySlice s 0 4) = some y ∧ pyInt (pySlice s 5 7) = some mo
      ∧ pyInt (pySlice s 8 10) = some d
      ∧ mkDatetime (max 1 y) (max 1 mo) (max 1 d) hh mi sec us tz = some dt := by
  unfold _fromisoformat at h
  split at h
  · split at h
    · exact absurd h (by simp)
    · split at h
      · exact absurd h (by simp)
      · split at h
        · exact absurd h (by simp)
        · split at h
          · rename_i y mo d hh mi hy hmo hd hhh hmi
            exact ⟨y, mo, d, hh, mi, _, _, _, hy, hmo, hd, h⟩
          · exact absurd h (by simp)
  · exact absurd h (by simp)

theorem _fromisoformat_eq {s : List Char} (hstruct : structuralOk s = true)
    {sec us : ℤ} {tz : Option Tz} {y mo d hh mi : ℤ}
    (h1 : parseSecondsField s = some sec) (h2 : parseFragment s = some us)
    (h3 : parseTzSuffix s = some tz)
    (h4 : pyInt (pySlice s 0 4) = some y) (h5 : pyInt (pySlice s 5 7) = some mo)
    (h6 : pyInt (pySlice s 8 10) = some d) (h7 : pyInt (pySlice s 11 13) = some hh)
    (h8 : pyInt (pySlice s 14 16) = some mi) :
    _fromisoformat s = mkDatetime (max 1 y) (max 1 mo) (max 1 d) hh mi sec us tz := by
  simp only [_fromisoformat, hstruct, h1, h2, h3, h4, h5, h6, h7, h8, if_true]

theorem _fromisoformat_frag_none {s : List Char} (hstruct : structuralOk s = true)
    {sec : ℤ} (h1 : parseSecondsField s = some sec) (h2 : parseFragment s = none) :
    _fromisoformat s = none := by
  simp only [_fromisoformat, hstruct, h1, h2, if_true]

/-! ## Claim theorems -/

/-- Claim C4: every fast-path timestamp whose year, month, or day component
parses to zero is clamped upward to 1 rather than rejected; in particular
`parse_instant("0000-00-00T00:00:00.000Z")` yields year=1, month=1, day=1
at UTC with all time fields zero. -/
theorem claim_C4 :
    (∀ s dt, _fromisoformat s = some dt →
      (pyInt (pySlice s 0 4) = some 0 → dt.year = 1)
      ∧ (pyInt (pySlice s 5 7) = some 0 → dt.month = 1)
      ∧ (pyInt (pySlice s 8 10) = some 0 → dt.day = 1))
    ∧ _fromisoformat "0000-00-00T00:00:00.000Z".data
        = some ⟨1, 1, 1, 0, 0, 0, 0, some Tz.utc⟩ := by
  constructor
  · intro s dt h
    obtain ⟨y, mo, d, hh, mi, sec, us, tz, hy, hmo, hd, hmk⟩ := _fromisoformat_inv h
    have hdt := mkDatetime_some hmk
    refine ⟨fun h0 => ?_, fun h0 => ?_, fun h0 => ?_⟩ <;> rw [hdt]
    · have : y = 0 := by rw [hy] at h0; exact Option.some.inj h0
      simp [this]
    · have : mo = 0 := by rw [hmo] at h0; exact Option.some.inj h0
      simp [this]
    · have : d = 0 := by rw [hd] at h0; exact Option.some.inj h0
      simp [this]
  · decide

/-- Witness for C4: the clamping consequence evaluated at the concrete
all-zero-date input. -/
theorem claim_C4_witness :
    ({ year := 1, month := 1, day := 1, hour := 0, minute := 0, second := 0,
       microsecond := 0, tzinfo := some Tz.utc } : PyDatetime).year = 1 :=
  (claim_C4.1 "0000-00-00T00:00:00.000Z".data _ claim_C4.2).1 (by decide)

/-- Helper: the datetime constructor call shared by the C3 cases. -/
theorem mkDatetime_c3 (us : ℤ) (h0 : 0 ≤ us) (h1 : us ≤ 999999) (tz : Option Tz) :
    mkDatetime (max 1 2017) (max 1 11) (max 1 13) 12 15 1 us tz
      = some ⟨2017, 11, 13, 12, 15, 1, us, tz⟩ := by
  unfold mkDatetime
  rw [if_pos]
  · norm_num
  · refine ⟨by decide, by decide, by decide, by decide, by decide, by decide,
      by decide, by decide, by decide, by decide, by decide, by decide, h0, h1⟩

/-- Claim C3: in the fast path, a fractional-second part of exactly 3 digits
is interpreted as milliseconds (multiplied by 1000 into microseconds),
exactly 6 digits as microseconds directly, and any other digit count makes
the fast path fail (upon which `datetime_parse` invokes the external
fallback parser). -/
theorem claim_C3 (ds : List Char) (hd : ∀ c ∈ ds, c.isDigit = true) :
    (ds.length = 3 →
      _fromisoformat ("2017-11-13T12:15:01.".data ++ ds)
        = some ⟨2017, 11, 13, 12, 15, 1, (digitsToNat ds : ℤ) * 1000, none⟩)
    ∧ (ds.length = 6 →
      _fromisoformat ("2017-11-13T12:15:01.".data ++ ds)
        = some ⟨2017, 11, 13, 12, 15, 1, (digitsToNat ds : ℤ), none⟩)
    ∧ (ds.length ≠ 3 → ds.length ≠ 6 →
      _fromisoformat ("2017-11-13T12:15:01.".data ++ ds) = none) := by
  have hbase : "2017-11-13T12:15:01.".data
      = ['2', '0', '1', '7', '-', '1', '1', '-', '1', '3', 'T', '1', '2', ':',
         '1', '5', ':', '0', '1', '.'] := by decide
  rw [hbase]
  refine ⟨fun h3 => ?_, fun h6 => ?_, fun h3 h6 => ?_⟩
  · obtain ⟨a, b, c, rfl⟩ := List.length_eq_three.mp h3
    have ha : a.isDigit = true := hd a (by simp)
    have hbb : b.isDigit = true := hd b (by simp)
    have hc : c.isDigit = true := hd c (by simp)
    have hfff : pyInt [a, b, c] = some (digitsToNat [a, b, c] : ℤ) :=
      pyInt_digits _ (by simp)
        (by intro x hx; simp at hx; rcases hx with rfl | rfl | rfl <;> assumption)
    have hfrag :
        parseFragment (['2', '0', '1', '7', '-', '1', '1', '-', '1', '3', 'T',
          '1', '2', ':', '1', '5', ':', '0', '1', '.'] ++ [a, b, c])
          = some ((digitsToNat [a, b, c] : ℤ) * 1000) := by
      simp only [parseFragment]
      rw [show (['2', '0', '1', '7', '-', '1', '1', '-', '1', '3', 'T', '1',
        '2', ':', '1', '5', ':', '0', '1', '.'] ++ [a, b, c]).drop 20 = [a, b, c] from rfl]
      rw [takeWhile_digits (by intro x hx; simp at hx; rcases hx with rfl | rfl | rfl <;> assumption)]
      simp [hfff]
    have htz :
        parseTzSuffix (['2', '0', '1', '7', '-', '1', '1', '-', '1', '3', 'T',
          '1', '2', ':', '1', '5', ':', '0', '1', '.'] ++ [a, b, c]) = some none := by
      have hlast : (['2', '0', '1', '7', '-', '1', '1', '-', '1', '3', 'T',
          '1', '2', ':', '1', '5', ':', '0', '1', '.'] ++ [a, b, c]).getLast? = some c := rfl
      simp only [parseTzSuffix, hlast]
      rw [if_neg (isDigit_ne hc (by decide))]
      rfl
    have hus : digitsToNat [a, b, c] < 1000 := by
      have := digitsToNat_lt [a, b, c]
        (by intro x hx; simp at hx; rcases hx with rfl | rfl | rfl <;> assumption)
      simpa using this
    have hus' : (digitsToNat [a, b, c] : ℤ) * 1000 ≤ 999999 := by
      have : (digitsToNat [a, b, c] : ℤ) < 1000 := by exact_mod_cast hus
      omega
    have hst : structuralOk (['2', '0', '1', '7', '-', '1', '1', '-', '1', '3', 'T', '1', '2', ':', '1', '5', ':', '0', '1', '.'] ++ [a, b, c]) = true := rfl
    have hsec : parseSecondsField (['2', '0', '1', '7', '-', '1', '1', '-', '1', '3', 'T', '1', '2', ':', '1', '5', ':', '0', '1', '.'] ++ [a, b, c]) = some 1 := rfl
    have hy : pyInt (pySlice (['2', '0', '1', '7', '-', '1', '1', '-', '1', '3', 'T', '1', '2', ':', '1', '5', ':', '0', '1', '.'] ++ [a, b, c]) 0 4) = some 2017 := rfl
    have hmo : pyInt (pySlice (['2', '0', '1', '7', '-', '1', '1', '-', '1', '3', 'T', '1', '2', ':', '1', '5', ':', '0', '1', '.'] ++ [a, b, c]) 5 7) = some 11 := rfl
    have hdy : pyInt (pySlice (['2', '0', '1', '7', '-', '1', '1', '-', '1', '3', 'T', '1', '2', ':', '1', '5', ':', '0', '1', '.'] ++ [a, b, c]) 8 10) = some 13 := rfl
    have hhr : pyInt (pySlice (['2', '0', '1', '7', '-', '1', '1', '-', '1', '3', 'T', '1', '2', ':', '1', '5', ':', '0', '1', '.'] ++ [a, b, c]) 11 13) = some 12 := rfl
    have hmn : pyInt (pySlice (['2', '0', '1', '7', '-', '1', '1', '-', '1', '3', 'T', '1', '2', ':', '1', '5', ':', '0', '1', '.'] ++ [a, b, c]) 14 16) = some 15 := rfl
    rw [_fromisoformat_eq hst hsec hfrag htz hy hmo hdy hhr hmn]
    exact mkDatetime_c3 _ (by positivity) hus' none
  · obtain ⟨a, b, c, d, e, f, rfl⟩ := length_eq_six h6
    have hall : ∀ x ∈ [a, b, c, d, e, f], x.isDigit = true := hd
    have ha : a.isDigit = true := hd a (by simp)
    have hbb : b.isDigit = true := hd b (by simp)
    have hf : f.isDigit = true := hd f (by simp)
    have hfff : pyInt [a, b, c, d, e, f] = some (digitsToNat [a, b, c, d, e, f] : ℤ) :=
      pyInt_digits _ (by simp) hall
    have hfrag :
        parseFragment (['2', '0', '1', '7', '-', '1', '1', '-', '1', '3', 'T',
          '1', '2', ':', '1', '5', ':', '0', '1', '.'] ++ [a, b, c, d, e, f])
          = some (digitsToNat [a, b, c, d, e, f] : ℤ) := by
      simp only [parseFragment]
      rw [show (['2', '0', '1', '7', '-', '1', '1', '-', '1', '3', 'T', '1',
        '2', ':', '1', '5', ':', '0', '1', '.'] ++ [a, b, c, d, e, f]).drop 20
          = [a, b, c, d, e, f] from rfl]
      rw [takeWhile_digits hall]
      simp [hfff]
    have hnsa : ¬(a = '+' ∨ a = '-') := by
      rintro (rfl | rfl) <;> exact absurd ha (by decide)
    have hnsb : ¬(b = '+' ∨ b = '-') := by
      rintro (rfl | rfl) <;> exact absurd hbb (by decide)
    have htz :
        parseTzSuffix (['2', '0', '1', '7', '-', '1', '1', '-', '1', '3', 'T',
          '1', '2', ':', '1', '5', ':', '0', '1', '.'] ++ [a, b, c, d, e, f])
          = some none := by
      have hlast : (['2', '0', '1', '7', '-', '1', '1', '-', '1', '3', 'T',
          '1', '2', ':', '1', '5', ':', '0', '1', '.'] ++ [a, b, c, d, e, f]).getLast?
          = some f := rfl
      have h6g : pyGetNeg (['2', '0', '1', '7', '-', '1', '1', '-', '1', '3', 'T',
          '1', '2', ':', '1', '5', ':', '0', '1', '.'] ++ [a, b, c, d, e, f]) 6
          = some a := rfl
      have h5g : pyGetNeg (['2', '0', '1', '7', '-', '1', '1', '-', '1', '3', 'T',
          '1', '2', ':', '1', '5', ':', '0', '1', '.'] ++ [a, b, c, d, e, f]) 5
          = some b := rfl
      simp only [parseTzSuffix, hlast]
      rw [if_neg (isDigit_ne hf (by decide))]
      simp only [h6g]
      rw [if_neg hnsa]
      simp only [tzShort, h5g]
      rw [if_neg hnsb]
    have hus : digitsToNat [a, b, c, d, e, f] < 1000000 := by
      have h := digitsToNat_lt [a, b, c, d, e, f] hall
      have hlen : ([a, b, c, d, e, f] : List Char).length = 6 := rfl
      rw [hlen] at h
      norm_num at h
      exact h
    have hus' : (digitsToNat [a, b, c, d, e, f] : ℤ) ≤ 999999 := by
      have : (digitsToNat [a, b, c, d, e, f] : ℤ) < 1000000 := by exact_mod_cast hus
      omega
    have hst : structuralOk (['2', '0', '1', '7', '-', '1', '1', '-', '1', '3', 'T', '1', '2', ':', '1', '5', ':', '0', '1', '.'] ++ [a, b, c, d, e, f]) = true := rfl
    have hsec : parseSecondsField (['2', '0', '1', '7', '-', '1', '1', '-', '1', '3', 'T', '1', '2', ':', '1', '5', ':', '0', '1', '.'] ++ [a, b, c, d, e, f]) = some 1 := rfl
    have hy : pyInt (pySlice (['2', '0', '1', '7', '-', '1', '1', '-', '1', '3', 'T', '1', '2', ':', '1', '5', ':', '0', '1', '.'] ++ [a, b, c, d, e, f]) 0 4) = some 2017 := rfl
    have hmo : pyInt (pySlice (['2', '0', '1', '7', '-', '1', '1', '-', '1', '3', 'T', '1', '2', ':', '1', '5', ':', '0', '1', '.'] ++ [a, b, c, d, e, f]) 5 7) = some 11 := rfl
    have hdy : pyInt (pySlice (['2', '0', '1', '7', '-', '1', '1', '-', '1', '3', 'T', '1', '2', ':', '1', '5', ':', '0', '1', '.'] ++ [a, b, c, d, e, f]) 8 10) = some 13 := rfl
    have hhr : pyInt (pySlice (['2', '0', '1', '7', '-', '1', '1', '-', '1', '3', 'T', '1', '2', ':', '1', '5', ':', '0', '1', '.'] ++ [a, b, c, d, e, f]) 11 13) = some 12 := rfl
    have hmn : pyInt (pySlice (['2', '0', '1', '7', '-', '1', '1', '-', '1', '3', 'T', '1', '2', ':', '1', '5', ':', '0', '1', '.'] ++ [a, b, c, d, e, f]) 14 16) = some 15 := rfl
    rw [_fromisoformat_eq hst hsec hfrag htz hy hmo hdy hhr hmn]
    exact mkDatetime_c3 _ (by positivity) hus' none
  · have hfrag :
        parseFragment (['2', '0', '1', '7', '-', '1', '1', '-', '1', '3', 'T',
          '1', '2', ':', '1', '5', ':', '0', '1', '.'] ++ ds) = none := by
      simp only [parseFragment]
      rw [show (['2', '0', '1', '7', '-', '1', '1', '-', '1', '3', 'T', '1',
        '2', ':', '1', '5', ':', '0', '1', '.'] ++ ds).drop 20 = ds from rfl]
      rw [takeWhile_digits hd]
      simp [h3, h6]
    have hst : structuralOk (['2', '0', '1', '7', '-', '1', '1', '-', '1', '3', 'T', '1', '2', ':', '1', '5', ':', '0', '1', '.'] ++ ds) = true := rfl
    have hsec : parseSecondsField (['2', '0', '1', '7', '-', '1', '1', '-', '1', '3', 'T', '1', '2', ':', '1', '5', ':', '0', '1', '.'] ++ ds) = some 1 := rfl
    exact _fromisoformat_frag_none hst hsec hfrag

/-- Witness for C3: the millisecond branch evaluated on the repository's own
test input `2017-11-13T12:15:01.124` (124 ms = 124000 microseconds). -/
theorem claim_C3_witness :
    _fromisoformat "2017-11-13T12:15:01.124".data
      = some ⟨2017, 11, 13, 12, 15, 1, 124000, none⟩ := by
  have h := (claim_C3 ['1', '2', '4'] (by decide)).1 rfl
  rw [show "2017-11-13T12:15:01.124".data
      = "2017-11-13T12:15:01.".data ++ ['1', '2', '4'] from by decide]
  rw [h]
  decide

/-- Claim C5: for every valid signed offset, the 6-character suffix `±hh:mm`
and the 5-character suffix `±hhmm` on the same timestamp parse to literally
identical Instants — the same wall-clock fields and the same fixed-offset
zone computed from the sign and magnitude — hence identical UTC-equivalent
instants; a trailing `Z` yields UTC and absence of a suffix yields a naive
Instant. -/
theorem claim_C5 (sg h1 h2 m1 m2 : Char) (hs : sg = '+' ∨ sg = '-')
    (hh1 : h1.isDigit = true) (hh2 : h2.isDigit = true)
    (hm1 : m1.isDigit = true) (hm2 : m2.isDigit = true) :
    (_fromisoformat ("2017-11-13T12:15:01".data ++ [sg, h1, h2, ':', m1, m2])
        = some ⟨2017, 11, 13, 12, 15, 1, 0,
            some (Tz.offset ((if sg = '+' then (1 : ℤ) else -1)
              * (((10 * (h1.toNat - 48) + (h2.toNat - 48) : ℕ) : ℤ) * 3600
                + ((10 * (m1.toNat - 48) + (m2.toNat - 48) : ℕ) : ℤ) * 60)))⟩
      ∧ _fromisoformat ("2017-11-13T12:15:01".data ++ [sg, h1, h2, m1, m2])
        = some ⟨2017, 11, 13, 12, 15, 1, 0,
            some (Tz.offset ((if sg = '+' then (1 : ℤ) else -1)
              * (((10 * (h1.toNat - 48) + (h2.toNat - 48) : ℕ) : ℤ) * 3600
                + ((10 * (m1.toNat - 48) + (m2.toNat - 48) : ℕ) : ℤ) * 60)))⟩)
    ∧ _fromisoformat "2017-11-13T12:15:01Z".data
        = some ⟨2017, 11, 13, 12, 15, 1, 0, some Tz.utc⟩
    ∧ _fromisoformat "2017-11-13T12:15:01".data
        = some ⟨2017, 11, 13, 12, 15, 1, 0, none⟩ := by
  refine ⟨?_, by decide, by decide⟩
  rw [show "2017-11-13T12:15:01".data = ['2', '0', '1', '7', '-', '1', '1', '-', '1', '3', 'T', '1', '2', ':', '1', '5', ':', '0', '1'] from by decide]
  rcases hs with rfl | rfl
  · constructor
    · have hfrag : parseFragment (['2', '0', '1', '7', '-', '1', '1', '-', '1', '3', 'T', '1', '2', ':', '1', '5', ':', '0', '1'] ++ ['+', h1, h2, ':', m1, m2]) = some 0 := rfl
      have hlast : (['2', '0', '1', '7', '-', '1', '1', '-', '1', '3', 'T', '1', '2', ':', '1', '5', ':', '0', '1'] ++ ['+', h1, h2, ':', m1, m2]).getLast? = some m2 := rfl
      have hsl1 : pySliceNeg (['2', '0', '1', '7', '-', '1', '1', '-', '1', '3', 'T', '1', '2', ':', '1', '5', ':', '0', '1'] ++ ['+', h1, h2, ':', m1, m2]) 5 3 = [h1, h2] := rfl
      have hsl2 : pySliceNeg (['2', '0', '1', '7', '-', '1', '1', '-', '1', '3', 'T', '1', '2', ':', '1', '5', ':', '0', '1'] ++ ['+', h1, h2, ':', m1, m2]) 2 0 = [m1, m2] := rfl
      have h6g : pyGetNeg (['2', '0', '1', '7', '-', '1', '1', '-', '1', '3', 'T', '1', '2', ':', '1', '5', ':', '0', '1'] ++ ['+', h1, h2, ':', m1, m2]) 6 = some '+' := rfl
      have htz : parseTzSuffix (['2', '0', '1', '7', '-', '1', '1', '-', '1', '3', 'T', '1', '2', ':', '1', '5', ':', '0', '1'] ++ ['+', h1, h2, ':', m1, m2])
          = some (some (Tz.offset ((if ('+' : Char) = '+' then (1 : ℤ) else -1)
              * (((10 * (h1.toNat - 48) + (h2.toNat - 48) : ℕ) : ℤ) * 3600
                + ((10 * (m1.toNat - 48) + (m2.toNat - 48) : ℕ) : ℤ) * 60)))) := by
        simp only [parseTzSuffix, hlast]
        rw [if_neg (isDigit_ne hm2 (by decide))]
        simp only [h6g, hsl1, hsl2, pyInt_two_digits hh1 hh2,
          pyInt_two_digits hm1 hm2, true_or, or_true, if_true]
      have hst : structuralOk (['2', '0', '1', '7', '-', '1', '1', '-', '1', '3', 'T', '1', '2', ':', '1', '5', ':', '0', '1'] ++ ['+', h1, h2, ':', m1, m2]) = true := rfl
      have hsec : parseSecondsField (['2', '0', '1', '7', '-', '1', '1', '-', '1', '3', 'T', '1', '2', ':', '1', '5', ':', '0', '1'] ++ ['+', h1, h2, ':', m1, m2]) = some 1 := rfl
      have hy : pyInt (pySlice (['2', '0', '1', '7', '-', '1', '1', '-', '1', '3', 'T', '1', '2', ':', '1', '5', ':', '0', '1'] ++ ['+', h1, h2, ':', m1, m2]) 0 4) = some 2017 := rfl
      have hmo : pyInt (pySlice (['2', '0', '1', '7', '-', '1', '1', '-', '1', '3', 'T', '1', '2', ':', '1', '5', ':', '0', '1'] ++ ['+', h1, h2, ':', m1, m2]) 5 7) = some 11 := rfl
      have hdy : pyInt (pySlice (['2', '0', '1', '7', '-', '1', '1', '-', '1', '3', 'T', '1', '2', ':', '1', '5', ':', '0', '1'] ++ ['+', h1, h2, ':', m1, m2]) 8 10) = some 13 := rfl
      have hhr : pyInt (pySlice (['2', '0', '1', '7', '-', '1', '1', '-', '1', '3', 'T', '1', '2', ':', '1', '5', ':', '0', '1'] ++ ['+', h1, h2, ':', m1, m2]) 11 13) = some 12 := rfl
      have hmn : pyInt (pySlice (['2', '0', '1', '7', '-', '1', '1', '-', '1', '3', 'T', '1', '2', ':', '1', '5', ':', '0', '1'] ++ ['+', h1, h2, ':', m1, m2]) 14 16) = some 15 := rfl
      rw [_fromisoformat_eq hst hsec hfrag htz hy hmo hdy hhr hmn]
      exact mkDatetime_c3 0 (by norm_num) (by norm_num) _
    · have hfrag : parseFragment (['2', '0', '1', '7', '-', '1', '1', '-', '1', '3', 'T', '1', '2', ':', '1', '5', ':', '0', '1'] ++ ['+', h1, h2, m1, m2]) = some 0 := rfl
      have hlast : (['2', '0', '1', '7', '-', '1', '1', '-', '1', '3', 'T', '1', '2', ':', '1', '5', ':', '0', '1'] ++ ['+', h1, h2, m1, m2]).getLast? = some m2 := rfl
      have hsl1 : pySliceNeg (['2', '0', '1', '7', '-', '1', '1', '-', '1', '3', 'T', '1', '2', ':', '1', '5', ':', '0', '1'] ++ ['+', h1, h2, m1, m2]) 4 2 = [h1, h2] := rfl
      have hsl2 : pySliceNeg (['2', '0', '1', '7', '-', '1', '1', '-', '1', '3', 'T', '1', '2', ':', '1', '5', ':', '0', '1'] ++ ['+', h1, h2, m1, m2]) 2 0 = [m1, m2] := rfl
      have h6g : pyGetNeg (['2', '0', '1', '7', '-', '1', '1', '-', '1', '3', 'T', '1', '2', ':', '1', '5', ':', '0', '1'] ++ ['+', h1, h2, m1, m2]) 6 = some '1' := rfl
      have h5g : pyGetNeg (['2', '0', '1', '7', '-', '1', '1', '-', '1', '3', 'T', '1', '2', ':', '1', '5', ':', '0', '1'] ++ ['+', h1, h2, m1, m2]) 5 = some '+' := rfl
      have htz : parseTzSuffix (['2', '0', '1', '7', '-', '1', '1', '-', '1', '3', 'T', '1', '2', ':', '1', '5', ':', '0', '1'] ++ ['+', h1, h2, m1, m2])
          = some (some (Tz.offset ((if ('+' : Char) = '+' then (1 : ℤ) else -1)
              * (((10 * (h1.toNat - 48) + (h2.toNat - 48) : ℕ) : ℤ) * 3600
                + ((10 * (m1.toNat - 48) + (m2.toNat - 48) : ℕ) : ℤ) * 60)))) := by
        simp only [parseTzSuffix, hlast]
        rw [if_neg (isDigit_ne hm2 (by decide))]
        simp only [h6g]
        rw [if_neg (by decide : ¬(('1' : Char) = '+' ∨ ('1' : Char) = '-'))]
        simp only [tzShort, h5g, hsl1, hsl2, pyInt_two_digits hh1 hh2,
          pyInt_two_digits hm1 hm2, true_or, or_true, if_true]
      have hst : structuralOk (['2', '0', '1', '7', '-', '1', '1', '-', '1', '3', 'T', '1', '2', ':', '1', '5', ':', '0', '1'] ++ ['+', h1, h2, m1, m2]) = true := rfl
      have hsec : parseSecondsField (['2', '0', '1', '7', '-', '1', '1', '-', '1', '3', 'T', '1', '2', ':', '1', '5', ':', '0', '1'] ++ ['+', h1, h2, m1, m2]) = some 1 := rfl
      have hy : pyInt (pySlice (['2', '0', '1', '7', '-', '1', '1', '-', '1', '3', 'T', '1', '2', ':', '1', '5', ':', '0', '1'] ++ ['+', h1, h2, m1, m2]) 0 4) = some 2017 := rfl
      have hmo : pyInt (pySlice (['2', '0', '1', '7', '-', '1', '1', '-', '1', '3', 'T', '1', '2', ':', '1', '5', ':', '0', '1'] ++ ['+', h1, h2, m1, m2]) 5 7) = some 11 := rfl
      have hdy : pyInt (pySlice (['2', '0', '1', '7', '-', '1', '1', '-', '1', '3', 'T', '1', '2', ':', '1', '5', ':', '0', '1'] ++ ['+', h1, h2, m1, m2]) 8 10) = some 13 := rfl
      have hhr : pyInt (pySlice (['2', '0', '1', '7', '-', '1', '1', '-', '1', '3', 'T', '1', '2', ':', '1', '5', ':', '0', '1'] ++ ['+', h1, h2, m1, m2]) 11 13) = some 12 := rfl
      have hmn : pyInt (pySlice (['2', '0', '1', '7', '-', '1', '1', '-', '1', '3', 'T', '1', '2', ':', '1', '5', ':', '0', '1'] ++ ['+', h1, h2, m1, m2]) 14 16) = some 15 := rfl
      rw [_fromisoformat_eq hst hsec hfrag htz hy hmo hdy hhr hmn]
      exact mkDatetime_c3 0 (by norm_num) (by norm_num) _
  · constructor
    · have hfrag : parseFragment (['2', '0', '1', '7', '-', '1', '1', '-', '1', '3', 'T', '1', '2', ':', '1', '5', ':', '0', '1'] ++ ['-', h1, h2, ':', m1, m2]) = some 0 := rfl
      have hlast : (['2', '0', '1', '7', '-', '1', '1', '-', '1', '3', 'T', '1', '2', ':', '1', '5', ':', '0', '1'] ++ ['-', h1, h2, ':', m1, m2]).getLast? = some m2 := rfl
      have hsl1 : pySliceNeg (['2', '0', '1', '7', '-', '1', '1', '-', '1', '3', 'T', '1', '2', ':', '1', '5', ':', '0', '1'] ++ ['-', h1, h2, ':', m1, m2]) 5 3 = [h1, h2] := rfl
      have hsl2 : pySliceNeg (['2', '0', '1', '7', '-', '1', '1', '-', '1', '3', 'T', '1', '2', ':', '1', '5', ':', '0', '1'] ++ ['-', h1, h2, ':', m1, m2]) 2 0 = [m1, m2] := rfl
      have h6g : pyGetNeg (['2', '0', '1', '7', '-', '1', '1', '-', '1', '3', 'T', '1', '2', ':', '1', '5', ':', '0', '1'] ++ ['-', h1, h2, ':', m1, m2]) 6 = some '-' := rfl
      have htz : parseTzSuffix (['2', '0', '1', '7', '-', '1', '1', '-', '1', '3', 'T', '1', '2', ':', '1', '5', ':', '0', '1'] ++ ['-', h1, h2, ':', m1, m2])
          = some (some (Tz.offset ((if ('-' : Char) = '+' then (1 : ℤ) else -1)
              * (((10 * (h1.toNat - 48) + (h2.toNat - 48) : ℕ) : ℤ) * 3600
                + ((10 * (m1.toNat - 48) + (m2.toNat - 48) : ℕ) : ℤ) * 60)))) := by
        simp only [parseTzSuffix, hlast]
        rw [if_neg (isDigit_ne hm2 (by decide))]
        simp only [h6g, hsl1, hsl2, pyInt_two_digits hh1 hh2,
          pyInt_two_digits hm1 hm2, true_or, or_true, if_true]
      have hst : structuralOk (['2', '0', '1', '7', '-', '1', '1', '-', '1', '3', 'T', '1', '2', ':', '1', '5', ':', '0', '1'] ++ ['-', h1, h2, ':', m1, m2]) = true := rfl
      have hsec : parseSecondsField (['2', '0', '1', '7', '-', '1', '1', '-', '1', '3', 'T', '1', '2', ':', '1', '5', ':', '0', '1'] ++ ['-', h1, h2, ':', m1, m2]) = some 1 := rfl
      have hy : pyInt (pySlice (['2', '0', '1', '7', '-', '1', '1', '-', '1', '3', 'T', '1', '2', ':', '1', '5', ':', '0', '1'] ++ ['-', h1, h2, ':', m1, m2]) 0 4) = some 2017 := rfl
      have hmo : pyInt (pySlice (['2', '0', '1', '7', '-', '1', '1', '-', '1', '3', 'T', '1', '2', ':', '1', '5', ':', '0', '1'] ++ ['-', h1, h2, ':', m1, m2]) 5 7) = some 11 := rfl
      have hdy : pyInt (pySlice (['2', '0', '1', '7', '-', '1', '1', '-', '1', '3', 'T', '1', '2', ':', '1', '5', ':', '0', '1'] ++ ['-', h1, h2, ':', m1, m2]) 8 10) = some 13 := rfl
      have hhr : pyInt (pySlice (['2', '0', '1', '7', '-', '1', '1', '-', '1', '3', 'T', '1', '2', ':', '1', '5', ':', '0', '1'] ++ ['-', h1, h2, ':', m1, m2]) 11 13) = some 12 := rfl
      have hmn : pyInt (pySlice (['2', '0', '1', '7', '-', '1', '1', '-', '1', '3', 'T', '1', '2', ':', '1', '5', ':', '0', '1'] ++ ['-', h1, h2, ':', m1, m2]) 14 16) = some 15 := rfl
      rw [_fromisoformat_eq hst hsec hfrag htz hy hmo hdy hhr hmn]
      exact mkDatetime_c3 0 (by norm_num) (by norm_num) _
    · have hfrag : parseFragment (['2', '0', '1', '7', '-', '1', '1', '-', '1', '3', 'T', '1', '2', ':', '1', '5', ':', '0', '1'] ++ ['-', h1, h2, m1, m2]) = some 0 := rfl
      have hlast : (['2', '0', '1', '7', '-', '1', '1', '-', '1', '3', 'T', '1', '2', ':', '1', '5', ':', '0', '1'] ++ ['-', h1, h2, m1, m2]).getLast? = some m2 := rfl
      have hsl1 : pySliceNeg (['2', '0', '1', '7', '-', '1', '1', '-', '1', '3', 'T', '1', '2', ':', '1', '5', ':', '0', '1'] ++ ['-', h1, h2, m1, m2]) 4 2 = [h1, h2] := rfl
      have hsl2 : pySliceNeg (['2', '0', '1', '7', '-', '1', '1', '-', '1', '3', 'T', '1', '2', ':', '1', '5', ':', '0', '1'] ++ ['-', h1, h2, m1, m2]) 2 0 = [m1, m2] := rfl
      have h6g : pyGetNeg (['2', '0', '1', '7', '-', '1', '1', '-', '1', '3', 'T', '1', '2', ':', '1', '5', ':', '0', '1'] ++ ['-', h1, h2, m1, m2]) 6 = some '1' := rfl
      have h5g : pyGetNeg (['2', '0', '1', '7', '-', '1', '1', '-', '1', '3', 'T', '1', '2', ':', '1', '5', ':', '0', '1'] ++ ['-', h1, h2, m1, m2]) 5 = some '-' := rfl
      have htz : parseTzSuffix (['2', '0', '1', '7', '-', '1', '1', '-', '1', '3', 'T', '1', '2', ':', '1', '5', ':', '0', '1'] ++ ['-', h1, h2, m1, m2])
          = some (some (Tz.offset ((if ('-' : Char) = '+' then (1 : ℤ) else -1)
              * (((10 * (h1.toNat - 48) + (h2.toNat - 48) : ℕ) : ℤ) * 3600
                + ((10 * (m1.toNat - 48) + (m2.toNat - 48) : ℕ) : ℤ) * 60)))) := by
        simp only [parseTzSuffix, hlast]
        rw [if_neg (isDigit_ne hm2 (by decide))]
        simp only [h6g]
        rw [if_neg (by decide : ¬(('1' : Char) = '+' ∨ ('1' : Char) = '-'))]
        simp only [tzShort, h5g, hsl1, hsl2, pyInt_two_digits hh1 hh2,
          pyInt_two_digits hm1 hm2, true_or, or_true, if_true]
      have hst : structuralOk (['2', '0', '1', '7', '-', '1', '1', '-', '1', '3', 'T', '1', '2', ':', '1', '5', ':', '0', '1'] ++ ['-', h1, h2, m1, m2]) = true := rfl
      have hsec : parseSecondsField (['2', '0', '1', '7', '-', '1', '1', '-', '1', '3', 'T', '1', '2', ':', '1', '5', ':', '0', '1'] ++ ['-', h1, h2, m1, m2]) = some 1 := rfl
      have hy : pyInt (pySlice (['2', '0', '1', '7', '-', '1', '1', '-', '1', '3', 'T', '1', '2', ':', '1', '5', ':', '0', '1'] ++ ['-', h1, h2, m1, m2]) 0 4) = some 2017 := rfl
      have hmo : pyInt (pySlice (['2', '0', '1', '7', '-', '1', '1', '-', '1', '3', 'T', '1', '2', ':', '1', '5', ':', '0', '1'] ++ ['-', h1, h2, m1, m2]) 5 7) = some 11 := rfl
      have hdy : pyInt (pySlice (['2', '0', '1', '7', '-', '1', '1', '-', '1', '3', 'T', '1', '2', ':', '1', '5', ':', '0', '1'] ++ ['-', h1, h2, m1, m2]) 8 10) = some 13 := rfl
      have hhr : pyInt (pySlice (['2', '0', '1', '7', '-', '1', '1', '-', '1', '3', 'T', '1', '2', ':', '1', '5', ':', '0', '1'] ++ ['-', h1, h2, m1, m2]) 11 13) = some 12 := rfl
      have hmn : pyInt (pySlice (['2', '0', '1', '7', '-', '1', '1', '-', '1', '3', 'T', '1', '2', ':', '1', '5', ':', '0', '1'] ++ ['-', h1, h2, m1, m2]) 14 16) = some 15 := rfl
      rw [_fromisoformat_eq hst hsec hfrag htz hy hmo hdy hhr hmn]
      exact mkDatetime_c3 0 (by norm_num) (by norm_num) _

/-- Witness for C5: both offset suffix styles evaluated at `+02:00` /
`+0200`, the repository's own test offsets (7200 seconds). -/
theorem claim_C5_witness :
    _fromisoformat "2017-11-13T12:15:01+02:00".data
      = some ⟨2017, 11, 13, 12, 15, 1, 0, some (Tz.offset 7200)⟩
    ∧ _fromisoformat "2017-11-13T12:15:01+0200".data
      = some ⟨2017, 11, 13, 12, 15, 1, 0, some (Tz.offset 7200)⟩ := by
  have h := claim_C5 '+' '0' '2' '0' '0' (Or.inl rfl)
    (by decide) (by decide) (by decide) (by decide)
  constructor
  · rw [show "2017-11-13T12:15:01+02:00".data
        = "2017-11-13T12:15:01".data ++ ['+', '0', '2', ':', '0', '0'] from by decide]
    rw [h.1.1]
    decide
  · rw [show "2017-11-13T12:15:01+0200".data
        = "2017-11-13T12:15:01".data ++ ['+', '0', '2', '0', '0'] from by decide]
    rw [h.1.2]
    decide

/-- Helper: subtraction against the re-tagged epoch always cancels the
offset, whether the input is naive or aware. -/
theorem datetimeSub_min_left (x : DtMicros) :
    datetimeSub (minDatetimeFor x) x = some (0 - x.wall) := by
  cases htz : x.tz
  · simp [datetimeSub, minDatetimeFor, htz]
  · simp [datetimeSub, minDatetimeFor, htz]
    ring

theorem datetimeSub_min_right (x : DtMicros) :
    datetimeSub x (minDatetimeFor x) = some (x.wall - 0) := by
  cases htz : x.tz <;> simp [datetimeSub, minDatetimeFor, htz]

/-- Claim C6: `ceil` is `instant + ((epoch - instant) mod grid)` and `floor`
is `instant - ((instant - epoch) mod grid)`, the epoch being `datetime.min`
carried into the input's own zone (so the offset cancels); an instant
already on the grid is returned unchanged by both, and on such instants the
two compositions fix each other's output. -/
theorem claim_C6 (x : DtMicros) (d : ℤ) (hd : 0 < d) :
    ceil_datetime x d = some (addTimedelta x (Int.fmod (0 - x.wall) d))
    ∧ floor_datetime x d = some (addTimedelta x (-Int.fmod (x.wall - 0) d))
    ∧ (x.wall % d = 0 →
        ceil_datetime x d = some x
        ∧ floor_datetime x d = some x
        ∧ (floor_datetime x d).bind (fun y => ceil_datetime y d) = floor_datetime x d
        ∧ (ceil_datetime x d).bind (fun y => floor_datetime y d) = ceil_datetime x d) := by
  have hne : ¬ d = 0 := by omega
  have hceil : ceil_datetime x d = some (addTimedelta x (Int.fmod (0 - x.wall) d)) := by
    simp [ceil_datetime, datetimeSub_min_left, timedeltaMod, hne]
  have hfloor : floor_datetime x d = some (addTimedelta x (-Int.fmod (x.wall - 0) d)) := by
    simp [floor_datetime, datetimeSub_min_right, timedeltaMod, hne]
  refine ⟨hceil, hfloor, fun hgrid => ?_⟩
  have hmc : Int.fmod (0 - x.wall) d = 0 := by
    rw [Int.fmod_eq_emod _ hd.le, zero_sub]
    exact Int.emod_eq_zero_of_dvd (dvd_neg.mpr (Int.dvd_of_emod_eq_zero hgrid))
  have hmf : Int.fmod (x.wall - 0) d = 0 := by
    rw [Int.fmod_eq_emod _ hd.le, sub_zero]
    exact hgrid
  have hcx : ceil_datetime x d = some x := by
    rw [hceil, hmc]
    simp [addTimedelta]
  have hfx : floor_datetime x d = some x := by
    rw [hfloor, hmf]
    simp [addTimedelta]
  refine ⟨hcx, hfx, ?_, ?_⟩
  · rw [hfx]
    simpa using hcx
  · rw [hcx]
    simpa using hfx

/-- Witness for C6: the 15-minute grid case from the repository's tests:
2018-02-15 12:45 is on the grid and fixed by both roundings. -/
theorem claim_C6_witness :
    ceil_datetime ⟨45900000000, none⟩ 900000000 = some ⟨45900000000, none⟩
    ∧ floor_datetime ⟨45900000000, none⟩ 900000000 = some ⟨45900000000, none⟩ :=
  ⟨((claim_C6 ⟨45900000000, none⟩ 900000000 (by norm_num)).2.2 (by decide)).1,
   ((claim_C6 ⟨45900000000, none⟩ 900000000 (by norm_num)).2.2 (by decide)).2.1⟩

/-- Helper: membership of the weekday in the business-day list, as an
arithmetic condition on the date ordinal. -/
theorem is_business_day_iff (n : ℤ) :
    is_business_day n = true
      ↔ ((n - 1) % 7 = 0 ∨ (n - 1) % 7 = 1 ∨ (n - 1) % 7 = 2
          ∨ (n - 1) % 7 = 3 ∨ (n - 1) % 7 = 4) := by
  simp only [is_business_day, iso_business_days, isoweekday, decide_eq_true_eq,
    List.mem_cons, List.not_mem_nil, or_false]
  omega

theorem not_business_day (n : ℤ)
    (h : ¬((n - 1) % 7 = 0 ∨ (n - 1) % 7 = 1 ∨ (n - 1) % 7 = 2
          ∨ (n - 1) % 7 = 3 ∨ (n - 1) % 7 = 4)) :
    is_business_day n = false :=
  Bool.eq_false_iff.mpr (fun hh => h ((is_business_day_iff n).mp hh))

/-- Helper: full characterisation of the forward business-day step. -/
theorem next_business_spec (n : ℤ) :
    ∃ m, get_next_business_day n = some m ∧ is_business_day m = true ∧ n < m
      ∧ ∀ j, n < j → j < m → is_business_day j = false := by
  by_cases h4 : n % 7 ≤ 4
  · have hb1 : is_business_day (n + 1) = true := (is_business_day_iff _).mpr (by omega)
    refine ⟨n + 1, ?_, hb1, by omega, fun j hj1 hj2 => absurd hj1 (by omega)⟩
    simp [get_next_business_day, _get_next_timedelta, hb1]
  · by_cases h5 : n % 7 = 5
    · have hb1 : is_business_day (n + 1) = false := not_business_day _ (by omega)
      have hb2 : is_business_day (n + 2) = false := not_business_day _ (by omega)
      have hb3 : is_business_day (n + 3) = true := (is_business_day_iff _).mpr (by omega)
      refine ⟨n + 3, ?_, hb3, by omega, fun j hj1 hj2 => ?_⟩
      · have e1 : n + 1 + 1 = n + 2 := by ring
        have e2 : n + 2 + 1 = n + 3 := by ring
        simp [get_next_business_day, _get_next_timedelta, hb1, e1, hb2, e2, hb3]
      · have : j = n + 1 ∨ j = n + 2 := by omega
        rcases this with rfl | rfl
        · exact hb1
        · exact hb2
    · have h6 : n % 7 = 6 := by omega
      have hb1 : is_business_day (n + 1) = false := not_business_day _ (by omega)
      have hb2 : is_business_day (n + 2) = true := (is_business_day_iff _).mpr (by omega)
      refine ⟨n + 2, ?_, hb2, by omega, fun j hj1 hj2 => ?_⟩
      · have e1 : n + 1 + 1 = n + 2 := by ring
        simp [get_next_business_day, _get_next_timedelta, hb1, e1, hb2]
      · have : j = n + 1 := by omega
        rw [this]
        exact hb1

/-- Helper: full characterisation of the backward business-day step. -/
theorem prev_business_spec (n : ℤ) :
    ∃ k, get_previous_business_day n = some k ∧ is_business_day k = true ∧ k < n
      ∧ ∀ j, k < j → j < n → is_business_day j = false := by
  by_cases h2 : 2 ≤ n % 7
  · have hb1 : is_business_day (n - 1) = true := (is_business_day_iff _).mpr (by omega)
    refine ⟨n - 1, ?_, hb1, by omega, fun j hj1 hj2 => absurd hj1 (by omega)⟩
    simp [get_previous_business_day, _get_next_timedelta, hb1]
  · by_cases h1 : n % 7 = 1
    · have hb1 : is_business_day (n - 1) = false := not_business_day _ (by omega)
      have hb2 : is_business_day (n - 2) = false := not_business_day _ (by omega)
      have hb3 : is_business_day (n - 3) = true := (is_business_day_iff _).mpr (by omega)
      refine ⟨n - 3, ?_, hb3, by omega, fun j hj1 hj2 => ?_⟩
      · have e1 : n - 1 - 1 = n - 2 := by ring
        have e2 : n - 2 - 1 = n - 3 := by ring
        simp [get_previous_business_day, _get_next_timedelta, hb1, e1, hb2, e2, hb3]
      · have : j = n - 1 ∨ j = n - 2 := by omega
        rcases this with rfl | rfl
        · exact hb1
        · exact hb2
    · have h0 : n % 7 = 0 := by omega
      have hb1 : is_business_day (n - 1) = false := not_business_day _ (by omega)
      have hb2 : is_business_day (n - 2) = true := (is_business_day_iff _).mpr (by omega)
      refine ⟨n - 2, ?_, hb2, by omega, fun j hj1 hj2 => ?_⟩
      · have e1 : n - 1 - 1 = n - 2 := by ring
        simp [get_previous_business_day, _get_next_timedelta, hb1, e1, hb2]
      · have : j = n - 1 := by omega
        rw [this]
        exact hb1

/-- Claim C7: for every date (as a `toordinal` ordinal), the next business
day is a Monday-to-Friday date strictly later and the previous business day
is a Monday-to-Friday date strictly earlier — never a weekend day and never
the starting date itself — reached by single-day steps that skip exactly
the intervening Saturdays/Sundays. -/
theorem claim_C7 (n : ℤ) :
    ∃ m k, get_next_business_day n = some m ∧ get_previous_business_day n = some k
      ∧ is_business_day m = true ∧ n < m
      ∧ (∀ j, n < j → j < m → is_business_day j = false)
      ∧ is_business_day k = true ∧ k < n
      ∧ (∀ j, k < j → j < n → is_business_day j = false) := by
  obtain ⟨m, h1, h2, h3, h4⟩ := next_business_spec n
  obtain ⟨k, g1, g2, g3, g4⟩ := prev_business_spec n
  exact ⟨m, k, h1, g1, h2, h3, h4, g2, g3, g4⟩

/-- Helper: Python `int()` truncation agrees with the floor on nonnegative
rationals. -/
theorem pyTrunc_nonneg (q : ℚ) (h : 0 ≤ q) : pyTrunc q = ⌊q⌋ := by
  unfold pyTrunc
  rw [Int.tdiv_eq_ediv (Rat.num_nonneg.mpr h) (by exact_mod_cast q.den_pos.le)]
  rw [Rat.floor_def]

/-- Helper: Python `int()` truncation is the negated floor of the negation
on negative rationals (truncation toward zero). -/
theorem pyTrunc_neg (q : ℚ) (h : q < 0) : pyTrunc q = -⌊-q⌋ := by
  unfold pyTrunc
  rw [Rat.floor_def, Rat.neg_num, Rat.neg_den]
  have e := Int.neg_tdiv (-q.num) q.den
  rw [neg_neg] at e
  rw [e, Int.tdiv_eq_ediv (by have := Rat.num_neg.mpr h; omega)
    (by exact_mod_cast q.den_pos.le)]

/-- Claim C8: `resolve_zone` on a string identifier first consults the
primary IANA catalog; on a miss it translates through the platform-native
table and retries the primary catalog; and (given that the table only
translates to names the primary catalog knows, as the real `win_tz` table
does) it fails carrying exactly the original identifier precisely when both
lookups miss. -/
theorem claim_C8 {Zone : Type} (catalog : String → Option Zone)
    (winTz : String → Option String) (ident : String)
    (hrange : ∀ w t, winTz w = some t → (catalog t).isSome = true) :
    (∀ e, ensure_tz_object catalog winTz ident = Except.error e
        ↔ (e = ident ∧ catalog ident = none ∧ winTz ident = none))
    ∧ (∀ z, catalog ident = some z →
        ensure_tz_object catalog winTz ident = Except.ok z)
    ∧ (∀ t z, catalog ident = none → winTz ident = some t → catalog t = some z →
        ensure_tz_object catalog winTz ident = Except.ok z) := by
  refine ⟨fun e => ?_, fun z hz => by simp [ensure_tz_object, hz],
    fun t z h1 h2 h3 => by simp [ensure_tz_object, h1, h2, h3]⟩
  constructor
  · intro h
    cases hc : catalog ident with
    | some z => simp [ensure_tz_object, hc] at h
    | none =>
      cases hw : winTz ident with
      | some t =>
        have hr := hrange ident t hw
        cases hct : catalog t with
        | some z2 => simp [ensure_tz_object, hc, hw, hct] at h
        | none => simp [hct] at hr
      | none =>
        simp [ensure_tz_object, hc, hw] at h
        exact ⟨h.symm, rfl, rfl⟩
  · rintro ⟨rfl, hc, hw⟩
    simp [ensure_tz_object, hc, hw]

/-- Witness for C8: a miniature catalog pair mirroring the real tables
(`FLE Standard Time` is the platform name of `Europe/Kiev`). -/
theorem claim_C8_witness :
    ensure_tz_object
      (fun s => if s = "Europe/Kiev" then some "Europe/Kiev" else none)
      (fun s => if s = "FLE Standard Time" then some "Europe/Kiev" else none)
      "FLE Standard Time" = Except.ok "Europe/Kiev" :=
  (claim_C8
    (fun s => if s = "Europe/Kiev" then some "Europe/Kiev" else none)
    (fun s => if s = "FLE Standard Time" then some "Europe/Kiev" else none)
    "FLE Standard Time"
    (by
      intro w t h
      by_cases hw : w = "FLE Standard Time"
      · subst hw
        have h2 : some "Europe/Kiev" = some t := h
        cases h2
        decide
      · rw [show (fun s => if s = "FLE Standard Time" then some "Europe/Kiev" else none) w
            = (if w = "FLE Standard Time" then some "Europe/Kiev" else none) from rfl,
          if_neg hw] at h
        cases h)).2.2 "Europe/Kiev" "Europe/Kiev" (by decide) (by decide) (by decide)

/-- Claim C10: `current_offset_hours` truncates the current UTC offset
toward zero, not toward negative infinity: a zone at UTC−(h:mm) with
0 < mm < 60 reports −h (floor division would report −(h+1)), and UTC+(h:mm)
reports +h. -/
theorem claim_C10 (h m : ℤ) (hh : 0 ≤ h) (hm0 : 0 < m) (hm60 : m < 60) :
    get_current_utc_offset (-(3600 * h + 60 * m)) = -h
    ∧ get_current_utc_offset (3600 * h + 60 * m) = h
    ∧ Int.fdiv (-(3600 * h + 60 * m)) 3600 = -(h + 1) := by
  have hfl : ⌊((3600 * h + 60 * m : ℤ) : ℚ) / 3600⌋ = h := by
    rw [show (3600 : ℚ) = ((3600 : ℕ) : ℚ) from by norm_num,
      Rat.floor_intCast_div_natCast]
    omega
  have hNpos : (0 : ℤ) < 3600 * h + 60 * m := by omega
  refine ⟨?_, ?_, ?_⟩
  · have hq : (((-(3600 * h + 60 * m) : ℤ) : ℚ) / 3600) < 0 := by
      apply div_neg_of_neg_of_pos _ (by norm_num)
      exact_mod_cast (by omega : (-(3600 * h + 60 * m) : ℤ) < 0)
    rw [get_current_utc_offset, pyTrunc_neg _ hq]
    rw [show -(((-(3600 * h + 60 * m) : ℤ) : ℚ) / 3600)
        = ((3600 * h + 60 * m : ℤ) : ℚ) / 3600 from by push_cast; ring]
    rw [hfl]
  · have hq : (0 : ℚ) ≤ ((3600 * h + 60 * m : ℤ) : ℚ) / 3600 := by
      apply div_nonneg _ (by norm_num)
      exact_mod_cast hNpos.le
    rw [get_current_utc_offset, pyTrunc_nonneg _ hq, hfl]
  · rw [Int.fdiv_eq_ediv _ (by norm_num)]
    omega

/-- Witness for C10: the UTC−05:30 / UTC+05:30 example: −5 and +5, while
floor division would give −6. -/
theorem claim_C10_witness :
    get_current_utc_offset (-19800) = -5
    ∧ get_current_utc_offset 19800 = 5
    ∧ Int.fdiv (-19800) 3600 = -6 := by
  have h := claim_C10 5 30 (by norm_num) (by norm_num) (by norm_num)
  refine ⟨?_, ?_, ?_⟩
  · have := h.1
    norm_num at this ⊢
    exact this
  · have := h.2.1
    norm_num at this ⊢
    exact this
  · have := h.2.2
    norm_num at this ⊢
    exact this

/-- Helper: a rational equals its own Python `int()` truncation exactly
when it is an integer (denominator 1). -/
theorem pyTrunc_intCast (n : ℤ) : pyTrunc ((n : ℤ) : ℚ) = n := by
  unfold pyTrunc
  rw [Rat.num_intCast, Rat.den_intCast]
  exact Int.tdiv_one n

theorem pyTrunc_eq_self_iff (q : ℚ) : (pyTrunc q : ℚ) = q ↔ q.den = 1 := by
  constructor
  · intro h
    rw [← h, Rat.den_intCast]
  · intro h
    have hq : q = (q.num : ℚ) := by
      rw [← Rat.num_div_den q, h]
      simp
    rw [hq, pyTrunc_intCast]

/-- Counterexample for C1: the duration pattern rejects the bare text `"P"`:
the `(?!\b)` lookahead demands a word character after `P`, and at
end-of-input there is a word boundary instead, so the grammar-level match
step returns no match (rather than accepting it with an all-zero delta). -/
theorem claim_C1_counterexample : iso8601DurationMatch "P".data = none := by
  decide

/-- Amended claim C1: parsing `"P"` alone is rejected by the grammar-level
match step (the lookahead after the mandatory `P` fails at end-of-input);
`parse_duration` then strips the `P` and feeds the empty remainder to the
date-literal fallback, and since the fallback parser fails on an empty
string the call raises the format error instead of returning an all-zero
delta. -/
theorem claim_C1_amended (fallback : List Char → Option PyDatetime)
    (hfb : fallback [] = none) :
    iso8601DurationMatch "P".data = none
    ∧ parse_iso_duration fallback "P".data
        = Except.error DurationError.couldNotParse := by
  refine ⟨by decide, ?_⟩
  simp only [parse_iso_duration, show iso8601DurationMatch "P".data = none from by decide]
  rw [if_pos (show "P".data.head? = some 'P' from by decide)]
  rw [show "P".data.drop 1 = [] from by decide]
  simp [datetime_parse, show _fromisoformat ([] : List Char) = none from by decide, hfb]

/-- Witness for the amended C1 at the concrete always-failing fallback. -/
theorem claim_C1_witness :
    parse_iso_duration (fun _ => none) "P".data
      = Except.error DurationError.couldNotParse :=
  (claim_C1_amended (fun _ => none) rfl).2

/-- Helper: evaluation of the captured `0.5Y` group's numeric value. -/
theorem psv_05 : _parse_single_duration_value (some ['0', '.', '5', 'Y']) = 1 / 2 := by
  simp only [_parse_single_duration_value]
  rw [show (['0', '.', '5', 'Y'] : List Char).dropLast = ['0', '.', '5'] from rfl]
  simp only [parseDecimal]
  rw [show (['0', '.', '5'] : List Char).takeWhile Char.isDigit = ['0'] from rfl,
    show (['0', '.', '5'] : List Char).dropWhile Char.isDigit = ['.', '5'] from rfl]
  norm_num [show digitsToNat ['0'] = 0 from rfl, show digitsToNat ['5'] = 5 from rfl]

/-- Helper: evaluation of the captured `0.4Y` group's numeric value. -/
theorem psv_04 : _parse_single_duration_value (some ['0', '.', '4', 'Y']) = 2 / 5 := by
  simp only [_parse_single_duration_value]
  rw [show (['0', '.', '4', 'Y'] : List Char).dropLast = ['0', '.', '4'] from rfl]
  simp only [parseDecimal]
  rw [show (['0', '.', '4'] : List Char).takeWhile Char.isDigit = ['0'] from rfl,
    show (['0', '.', '4'] : List Char).dropWhile Char.isDigit = ['.', '4'] from rfl]
  norm_num [show digitsToNat ['0'] = 0 from rfl, show digitsToNat ['4'] = 4 from rfl]

/-- Helper: the two outcomes of `_parse_duration_years` on a properly
fractional value, driven by whether the month count is exact. -/
theorem parse_duration_years_frac {g : List Char} {v : ℚ} {y n : ℤ}
    (hv : _parse_single_duration_value (some g) = v)
    (hy : pyTrunc v = y) (hne : (y : ℚ) ≠ v)
    (hn : pyTrunc ((v - (y : ℚ)) * 12) = n) :
    ((n : ℚ) = (v - (y : ℚ)) * 12 →
      _parse_duration_years (some g) = Except.ok (y, (v - (y : ℚ)) * 12))
    ∧ ((n : ℚ) ≠ (v - (y : ℚ)) * 12 →
      _parse_duration_years (some g) = Except.error DurationError.ambiguousYears) := by
  simp only [_parse_duration_years, hv, hy]
  constructor
  · intro h
    rw [if_neg hne, if_pos (by rw [hn]; exact h)]
  · intro h
    rw [if_neg hne, if_neg (by rw [hn]; exact h)]

theorem years_05 : _parse_duration_years (some ['0', '.', '5', 'Y'])
    = Except.ok (0, 6) := by
  have htr : pyTrunc (1 / 2 : ℚ) = 0 := by
    rw [pyTrunc_nonneg _ (by norm_num)]
    norm_num
  have hn : pyTrunc (((1 / 2 : ℚ) - ((0 : ℤ) : ℚ)) * 12) = 6 := by
    rw [pyTrunc_nonneg _ (by norm_num)]
    norm_num
  have h := (parse_duration_years_frac psv_05 htr (by norm_num) hn).1 (by norm_num)
  rw [h]
  norm_num

theorem years_04 : _parse_duration_years (some ['0', '.', '4', 'Y'])
    = Except.error DurationError.ambiguousYears := by
  have htr : pyTrunc (2 / 5 : ℚ) = 0 := by
    rw [pyTrunc_nonneg _ (by norm_num)]
    norm_num
  have hn : pyTrunc (((2 / 5 : ℚ) - ((0 : ℤ) : ℚ)) * 12) = 4 := by
    rw [pyTrunc_nonneg _ (by norm_num)]
    norm_num
  exact (parse_duration_years_frac psv_04 htr (by norm_num) hn).2 (by norm_num)

/-- Helper: the `relativedelta` constructor succeeds on integral
years/months and stores their truncations. -/
theorem mkRelativedelta_eval (a b : ℤ) {ys ms ds ws hs mins ss : ℚ}
    (hy : ys = (a : ℚ)) (hm : ms = (b : ℚ)) :
    mkRelativedelta ys ms ds ws hs mins ss
      = Except.ok ⟨a, b, ds, ws, hs, mins, ss⟩ := by
  subst hy hm
  unfold mkRelativedelta
  rw [if_pos ⟨by rw [pyTrunc_intCast], by rw [pyTrunc_intCast]⟩,
    pyTrunc_intCast, pyTrunc_intCast]

/-- Claim C2: a fractional years field splits into integer years plus a
remainder; the remainder times 12 must be an exact integer month count,
which becomes the extra-months component (`parse_duration("P0.5Y")` is
exactly 6 months), and when the remainder times 12 is not an exact integer
(as for `"P0.4Y"`) the parse fails with `AmbiguousDurationError`. -/
theorem claim_C2 (fallback : List Char → Option PyDatetime) (g : List Char) :
    parse_iso_duration fallback "P0.5Y".data
      = Except.ok ⟨0, 6, 0, 0, 0, 0, 0⟩
    ∧ parse_iso_duration fallback "P0.4Y".data
      = Except.error DurationError.ambiguousYears
    ∧ (((_parse_single_duration_value (some g)
          - (pyTrunc (_parse_single_duration_value (some g)) : ℚ)) * 12).den = 1 →
        _parse_duration_years (some g)
          = Except.ok (pyTrunc (_parse_single_duration_value (some g)),
              (_parse_single_duration_value (some g)
                - (pyTrunc (_parse_single_duration_value (some g)) : ℚ)) * 12))
    ∧ (((_parse_single_duration_value (some g)
          - (pyTrunc (_parse_single_duration_value (some g)) : ℚ)) * 12).den ≠ 1 →
        _parse_duration_years (some g)
          = Except.error DurationError.ambiguousYears) := by
  refine ⟨?_, ?_, ?_, ?_⟩
  · simp only [parse_iso_duration,
      show iso8601DurationMatch "P0.5Y".data
        = some ⟨none, some ['0', '.', '5', 'Y'], none, none, none, none, none, none⟩
      from by decide, years_05, _parse_duration_months, _parse_single_duration_value,
      reduceCtorEq, if_false]
    norm_num
    refine (mkRelativedelta_eval 0 6 (by norm_num) (by norm_num)).trans ?_
    norm_num
  · simp only [parse_iso_duration,
      show iso8601DurationMatch "P0.4Y".data
        = some ⟨none, some ['0', '.', '4', 'Y'], none, none, none, none, none, none⟩
      from by decide, years_04]
  · intro hden
    simp only [_parse_duration_years]
    by_cases hint : (pyTrunc (_parse_single_duration_value (some g)) : ℚ)
        = _parse_single_duration_value (some g)
    · rw [if_pos hint]
      have hz : _parse_single_duration_value (some g)
          - (pyTrunc (_parse_single_duration_value (some g)) : ℚ) = 0 := by
        rw [hint]
        ring
      rw [hz, zero_mul]
    · rw [if_neg hint,
        if_pos ((pyTrunc_eq_self_iff _).mpr hden)]
  · intro hden
    simp only [_parse_duration_years]
    have hint : ¬((pyTrunc (_parse_single_duration_value (some g)) : ℚ)
        = _parse_single_duration_value (some g)) := by
      intro hint
      apply hden
      have hz : _parse_single_duration_value (some g)
          - (pyTrunc (_parse_single_duration_value (some g)) : ℚ) = 0 := by
        rw [hint]
        ring
      rw [hz, zero_mul]
      rfl
    rw [if_neg hint,
      if_neg (fun hmon => hden ((pyTrunc_eq_self_iff _).mp hmon))]

/-- Witness for C2: the general years-resolution conjuncts evaluated on the
captured groups `0.5Y` (succeeds, 6 extra months) and `0.4Y` (fails). -/
theorem claim_C2_witness :
    _parse_duration_years (some ['0', '.', '5', 'Y']) = Except.ok (0, 6)
    ∧ _parse_duration_years (some ['0', '.', '4', 'Y'])
        = Except.error DurationError.ambiguousYears := by
  have htr5 : pyTrunc (_parse_single_duration_value (some ['0', '.', '5', 'Y'])) = 0 := by
    rw [psv_05, pyTrunc_nonneg _ (by norm_num)]
    norm_num
  have htr4 : pyTrunc (_parse_single_duration_value (some ['0', '.', '4', 'Y'])) = 0 := by
    rw [psv_04, pyTrunc_nonneg _ (by norm_num)]
    norm_num
  constructor
  · have hden : ((_parse_single_duration_value (some ['0', '.', '5', 'Y'])
        - (pyTrunc (_parse_single_duration_value (some ['0', '.', '5', 'Y'])) : ℚ))
          * 12).den = 1 := by
      rw [htr5, psv_05]
      rw [show ((1 / 2 : ℚ) - ((0 : ℤ) : ℚ)) * 12 = ((6 : ℤ) : ℚ) from by norm_num]
      rw [Rat.den_intCast]
    have h := (claim_C2 (fun _ => none) ['0', '.', '5', 'Y']).2.2.1 hden
    rw [h, htr5, psv_05]
    norm_num
  · have hden : ((_parse_single_duration_value (some ['0', '.', '4', 'Y'])
        - (pyTrunc (_parse_single_duration_value (some ['0', '.', '4', 'Y'])) : ℚ))
          * 12).den ≠ 1 := by
      rw [htr4, psv_04]
      intro hd
      have h2 := (pyTrunc_eq_self_iff _).mpr hd
      rw [show ((2 / 5 : ℚ) - ((0 : ℤ) : ℚ)) * 12 = (24 / 5 : ℚ) from by norm_num,
        pyTrunc_nonneg _ (by norm_num)] at h2
      norm_num at h2
    exact (claim_C2 (fun _ => none) ['0', '.', '4', 'Y']).2.2.2 hden

/-- Helper: when the sign group did not participate, the sign scanner
consumed nothing. -/
theorem parseSign_none {s : List Char} (h : (parseSign s).1 = none) :
    parseSign s = (none, s) := by
  cases s with
  | nil => rfl
  | cons c t =>
    simp only [parseSign] at h ⊢
    by_cases hc : c = '+' ∨ c = '-'
    · rw [if_pos hc] at h
      exact absurd h (by simp)
    · rw [if_neg hc]

/-- Helper: a sign-less grammar match is a body match of the whole input. -/
theorem durationMatch_inv {s : List Char} {m : DurationMatch}
    (hm : iso8601DurationMatch s = some m) (hsign : m.sign = none) :
    parseSign s = (none, s)
    ∧ ∃ b, matchDurationBody s = some b ∧ m = { b with sign := none } := by
  simp only [iso8601DurationMatch] at hm
  cases hb : matchDurationBody (parseSign s).2 with
  | none => rw [hb] at hm; exact absurd hm (by simp)
  | some b =>
    rw [hb] at hm
    simp only [Option.map_some'] at hm
    have hmb : { b with sign := (parseSign s).1 } = m := Option.some.inj hm
    have h1 : (parseSign s).1 = none := by rw [← hsign, ← hmb]
    have hps := parseSign_none h1
    rw [hps] at hb
    exact ⟨hps, b, hb, by rw [← hmb, h1]⟩

/-- Helper: prefixing a sign-less matching input with `'-'` matches with the
sign group set and all other groups unchanged. -/
theorem durationMatch_neg {s : List Char} {m : DurationMatch}
    (hm : iso8601DurationMatch s = some m) (hsign : m.sign = none) :
    iso8601DurationMatch ('-' :: s) = some { m with sign := some '-' } := by
  obtain ⟨hps, b, hb, rfl⟩ := durationMatch_inv hm hsign
  unfold iso8601DurationMatch
  rw [show parseSign ('-' :: s) = (some '-', s) from rfl]
  cases b with
  | mk sg ys ms ws ds hs mins ss => simp [hb]

/-- Helper: the `relativedelta` constructor commutes with componentwise
negation of its arguments. -/
theorem mkRelativedelta_neg {ys ms ds ws hs mins ss : ℚ} {d : RelativeDelta}
    (h : mkRelativedelta ys ms ds ws hs mins ss = Except.ok d) :
    mkRelativedelta (-ys) (-ms) (-ds) (-ws) (-hs) (-mins) (-ss)
      = Except.ok (negDelta d) := by
  unfold mkRelativedelta at h ⊢
  by_cases hc : (pyTrunc ys : ℚ) = ys ∧ (pyTrunc ms : ℚ) = ms
  · rw [if_pos hc] at h
    have hys : (-ys) = ((-(pyTrunc ys) : ℤ) : ℚ) := by
      push_cast
      rw [hc.1]
    have hms2 : (-ms) = ((-(pyTrunc ms) : ℤ) : ℚ) := by
      push_cast
      rw [hc.2]
    rw [if_pos ⟨by rw [hys, pyTrunc_intCast], by rw [hms2, pyTrunc_intCast]⟩]
    rw [hys, pyTrunc_intCast, hms2, pyTrunc_intCast]
    injection h with h2
    rw [← h2]
    rfl
  · rw [if_neg hc] at h
    exact absurd h (by simp)

/-- Claim C9: a leading `-` multiplies every resolved component by −1: for
every grammar-matching sign-less input `s` whose parse succeeds, parsing
`"-" ++ s` yields exactly the componentwise negation; and every missing
field resolves to 0. -/
theorem claim_C9 (fallback : List Char → Option PyDatetime) (s : List Char)
    (m : DurationMatch) (d : RelativeDelta)
    (hm : iso8601DurationMatch s = some m) (hsign : m.sign = none)
    (hok : parse_iso_duration fallback s = Except.ok d) :
    parse_iso_duration fallback ('-' :: s) = Except.ok (negDelta d)
    ∧ _parse_single_duration_value none = 0
    ∧ _parse_duration_years none = Except.ok (0, 0)
    ∧ _parse_duration_months none = Except.ok 0 := by
  refine ⟨?_, rfl, rfl, rfl⟩
  have hneg := durationMatch_neg hm hsign
  simp only [parse_iso_duration, hm, hsign, reduceCtorEq, if_false] at hok
  simp only [parse_iso_duration, hneg, if_true]
  cases hys : _parse_duration_years m.years with
  | error e =>
    simp only [hys] at hok
    exact absurd hok (by simp)
  | ok ye =>
    simp only [hys] at hok
    cases hms : _parse_duration_months m.months with
    | error e =>
      simp only [hms] at hok
      exact absurd hok (by simp)
    | ok mos =>
      simp only [hys, hms]
      simp only [hms] at hok
      have harg : ∀ X : ℚ, ((-1 : ℤ) : ℚ) * X = -(((1 : ℤ) : ℚ) * X) := by
        intro X
        push_cast
        ring
      simp only [harg]
      exact mkRelativedelta_neg hok

/-- Helper: the captured `3D` group resolves to the value 3. -/
theorem psv_3D : _parse_single_duration_value (some ['3', 'D']) = 3 := by
  simp only [_parse_single_duration_value]
  rw [show (['3', 'D'] : List Char).dropLast = ['3'] from rfl]
  simp only [parseDecimal]
  rw [show (['3'] : List Char).takeWhile Char.isDigit = ['3'] from rfl,
    show (['3'] : List Char).dropWhile Char.isDigit = ([] : List Char) from rfl]
  norm_num [show digitsToNat ['3'] = 3 from rfl]

theorem psv_none : _parse_single_duration_value none = 0 := rfl

/-- Helper: the concrete parse of `P3D`. -/
theorem parse_P3D :
    parse_iso_duration (fun _ => none) "P3D".data
      = Except.ok ⟨0, 0, 3, 0, 0, 0, 0⟩ := by
  simp only [parse_iso_duration,
    show iso8601DurationMatch "P3D".data
      = some ⟨none, none, none, none, some ['3', 'D'], none, none, none⟩ from by decide,
    _parse_duration_years, _parse_duration_months, psv_3D, psv_none,
    reduceCtorEq, if_false]
  refine (mkRelativedelta_eval 0 0 (by norm_num) (by norm_num)).trans ?_
  norm_num

/-- Witness for C9: negation of the concrete parse of `P3D`. -/
theorem claim_C9_witness :
    parse_iso_duration (fun _ => none) "-P3D".data
      = Except.ok (negDelta ⟨0, 0, 3, 0, 0, 0, 0⟩) := by
  rw [show "-P3D".data = '-' :: "P3D".data from by decide]
  exact (claim_C9 (fun _ => none) "P3D".data
    ⟨none, none, none, none, some ['3', 'D'], none, none, none⟩ ⟨0, 0, 3, 0, 0, 0, 0⟩
    (by decide) rfl parse_P3D).1

end TimeUtils
